import Mathlib

/-!
Verification of the polymarket-btc-bot decision-and-ingestion engine.

This file is a shallow embedding, in Lean 4, of the parts of the engine
(src/engine.py, src/ws_client.py) that the specification's testable
properties talk about: the position ledger (EngineState.update_position,
calculate_metrics, get_position), the opportunity evaluator
(evaluate_auto_trade with get_seconds_remaining and check_safety), the
order executor (execute_market_buy, execute_auto_trade), the directional
exposure check (check_directional_exposure), market discovery
(run_market_discovery), the push-price freshness layer (get_ws_price,
is_ws_fresh and the per-token fallback decision of fetch_all_asks), and
the per-tick execution gate of run_engine (cooldown, one-trade-per-tick,
time / book-age / exposure vetoes).

Modelling conventions:
- Python floats are modelled as exact rationals (ℚ); the claims under
  study are about comparisons and arithmetic identities, not binary
  rounding.
- datetime values are modelled as epoch seconds (Int); an end_time that
  is missing or unparseable is modelled as Option.none, matching the
  except-branch of get_seconds_remaining.
- Python dict-of-dicts state is modelled as total functions with the same
  get-with-default semantics the code uses.
- Fallible collaborator calls (order book fetch, order posting, order
  status query) are modelled as Except-valued inputs, one per call site.
-/

namespace PolyArb

/-! ### Configuration constants (src/engine.py lines 171-217) -/

def SLUG_COINS : List String := ["btc", "eth", "sol", "xrp"]

def TARGET_PAIR_COST : ℚ := 0.982

def MIN_IMPROVEMENT_REQUIRED : ℚ := 0.004

def MAX_DIRECTIONAL_RISK_PCT : ℚ := 0.35

def MAX_TRADE_PCT : ℚ := 0.12

def MIN_TRADE_USD : ℚ := 2

def MAX_TRADE_USD : ℚ := 100

def MIN_TIME_REMAINING : Int := 90

def AUTO_TRADE_COOLDOWN : ℚ := 15

def MAX_IMBALANCE : ℚ := 500

def WARN_IMBALANCE : ℚ := 400

def NO_TRADE_SECONDS : Int := 90

def PRICE_SLIPPAGE : ℚ := 0.006

def MIN_SECONDS_TO_OPEN_TRADE : Int := 25

def MAX_BOOK_AGE_SECONDS : ℚ := 1.5

def MAX_DIRECTIONAL_EXPOSURE_FRACTION : ℚ := 0.35

/-! ### Position ledger data model -/

/-- One of the two outcome legs of a binary market ("up" / "down" in the
source; any side value other than "up" is treated as "down" by
update_position, which the two-constructor type captures). -/
inductive Side where
  | up
  | down
  deriving DecidableEq, Repr

/-- Per-market position state, the value stored in EngineState.positions
(src/engine.py get_market lines 650-661).  The trade_log list is
bookkeeping-only and is not modelled. -/
structure MState where
  coin : String
  shares_up : ℚ
  spent_up : ℚ
  shares_down : ℚ
  spent_down : ℚ
  deriving DecidableEq, Repr

/-- The zero-initialised position dict created on first access. -/
def initMState : MState :=
  { coin := "", shares_up := 0, spent_up := 0, shares_down := 0, spent_down := 0 }

/-- The mutable engine state fields the claims touch: the positions dict
(condition_id -> position state) and the trade rate-limit bookkeeping of
run_engine. -/
structure EngineState where
  positions : String → Option MState
  last_trade_time : ℚ
  total_trades : Nat

/-- An engine state with no positions. -/
def EngineState.init : EngineState :=
  { positions := fun _ => none, last_trade_time := 0, total_trades := 0 }

/-- EngineState.get_market (src/engine.py lines 650-661): get-or-init of
the per-market position dict (read view; the dict insertion itself has no
observable effect beyond the returned defaults). -/
def EngineState.get_market (s : EngineState) (condition_id : String) (coin : String) : MState :=
  match s.positions condition_id with
  | some m => m
  | none => { initMState with coin := coin }

/-- EngineState.update_position (src/engine.py lines 663-680): strictly
additive fill application; side "up" adds to the up leg, any other side
adds to the down leg. -/
def EngineState.update_position (s : EngineState) (condition_id : String) (side : Side)
    (shares : ℚ) (cost : ℚ) : EngineState :=
  let mstate := match s.positions condition_id with
    | some m => m
    | none => initMState
  let mstate' := match side with
    | Side.up =>
        { mstate with shares_up := mstate.shares_up + shares,
                      spent_up := mstate.spent_up + cost }
    | Side.down =>
        { mstate with shares_down := mstate.shares_down + shares,
                      spent_down := mstate.spent_down + cost }
  { s with positions := fun c => if c = condition_id then some mstate' else s.positions c }

/-- The position view returned by EngineState.get_position
(src/engine.py lines 763-795). -/
structure PositionView where
  shares_up : ℚ
  shares_down : ℚ
  spent_up : ℚ
  spent_down : ℚ
  avg_pair_cost : ℚ
  net_directional_shares : ℚ
  deriving DecidableEq, Repr

/-- EngineState.get_position (src/engine.py lines 763-795): position data
with safe defaults (missing market or missing keys read as 0.0). -/
def EngineState.get_position (s : EngineState) (condition_id : String) : PositionView :=
  let mstate := match s.positions condition_id with
    | some m => m
    | none => initMState
  let shares_up := mstate.shares_up
  let shares_down := mstate.shares_down
  let spent_up := mstate.spent_up
  let spent_down := mstate.spent_down
  let avg_up : ℚ := if shares_up > 0 then spent_up / shares_up else 0
  let avg_down : ℚ := if shares_down > 0 then spent_down / shares_down else 0
  let avg_pair_cost : ℚ := if shares_up > 0 ∧ shares_down > 0 then avg_up + avg_down else 0
  { shares_up := shares_up, shares_down := shares_down,
    spent_up := spent_up, spent_down := spent_down,
    avg_pair_cost := avg_pair_cost,
    net_directional_shares := shares_up - shares_down }

/-! ### Metrics (src/engine.py calculate_metrics, lines 1318-1369) -/

/-- The metrics dict computed by calculate_metrics. -/
structure Metrics where
  avg_up : ℚ
  avg_down : ℚ
  avg_pair_cost : ℚ
  locked_shares : ℚ
  locked_profit : ℚ
  unbalanced : ℚ
  imbalance_side : Option Side
  imbalance_signed : ℚ
  total_spent : ℚ
  deriving DecidableEq, Repr

/-- calculate_metrics (src/engine.py lines 1318-1369).  The enclosing
try/except cannot fire on these total operations, so only the main branch
is modelled. -/
def calculate_metrics (mstate : MState) : Metrics :=
  let shares_up := mstate.shares_up
  let shares_down := mstate.shares_down
  let spent_up := mstate.spent_up
  let spent_down := mstate.spent_down
  let avg_up : ℚ := if shares_up > 0 then spent_up / shares_up else 0
  let avg_down : ℚ := if shares_down > 0 then spent_down / shares_down else 0
  let avg_pair_cost : ℚ := if shares_up > 0 ∧ shares_down > 0 then avg_up + avg_down else 0
  let locked_shares := min shares_up shares_down
  let locked_profit : ℚ :=
    if locked_shares > 0 ∧ avg_pair_cost > 0 then locked_shares * (1 - avg_pair_cost) else 0
  let unbalanced := |shares_up - shares_down|
  let imbalance_side : Option Side :=
    if shares_up > shares_down then some Side.up
    else if shares_down > shares_up then some Side.down
    else none
  { avg_up := avg_up, avg_down := avg_down, avg_pair_cost := avg_pair_cost,
    locked_shares := locked_shares, locked_profit := locked_profit,
    unbalanced := unbalanced, imbalance_side := imbalance_side,
    imbalance_signed := shares_up - shares_down,
    total_spent := spent_up + spent_down }

/-- calculate_locked_profit (src/engine.py lines 1372-1378). -/
def calculate_locked_profit (mstate : MState) : ℚ :=
  (calculate_metrics mstate).locked_profit

/-- Division that fails (none) on a zero denominator, used to check that
every division calculate_metrics performs has a nonzero denominator. -/
def safeDiv (a b : ℚ) : Option ℚ :=
  if b = 0 then none else some (a / b)

/-- calculate_metrics with every division routed through safeDiv: the
same guards as the source, but a division with zero denominator makes the
whole computation return none instead of a value. -/
def calculate_metrics_checked (mstate : MState) : Option Metrics := do
  let shares_up := mstate.shares_up
  let shares_down := mstate.shares_down
  let spent_up := mstate.spent_up
  let spent_down := mstate.spent_down
  let avg_up : ℚ ← if shares_up > 0 then safeDiv spent_up shares_up else some 0
  let avg_down : ℚ ← if shares_down > 0 then safeDiv spent_down shares_down else some 0
  let avg_pair_cost : ℚ := if shares_up > 0 ∧ shares_down > 0 then avg_up + avg_down else 0
  let locked_shares := min shares_up shares_down
  let locked_profit : ℚ :=
    if locked_shares > 0 ∧ avg_pair_cost > 0 then locked_shares * (1 - avg_pair_cost) else 0
  let unbalanced := |shares_up - shares_down|
  let imbalance_side : Option Side :=
    if shares_up > shares_down then some Side.up
    else if shares_down > shares_up then some Side.down
    else none
  pure { avg_up := avg_up, avg_down := avg_down, avg_pair_cost := avg_pair_cost,
         locked_shares := locked_shares, locked_profit := locked_profit,
         unbalanced := unbalanced, imbalance_side := imbalance_side,
         imbalance_signed := shares_up - shares_down,
         total_spent := spent_up + spent_down }

/-! ### Markets and time (src/engine.py lines 1108-1311) -/

/-- A discovered market dict (find_active_market_for_coin lines 1165-1177
and the waiting placeholder of run_market_discovery lines 1266-1278). -/
structure Market where
  condition_id : Option String
  coin : String
  question : String
  slug : Option String
  end_time : Option Int
  up_token_id : Option String
  down_token_id : Option String
  up_price : Option ℚ
  down_price : Option ℚ
  active : Bool
  midpoint_timestamp : ℚ
  deriving DecidableEq, Repr

/-- get_seconds_remaining (src/engine.py lines 1300-1311): seconds until
expiry, clamped at 0; the sentinel 999 when end_time is missing (and, in
the source, when it cannot be processed - both modelled as none). -/
def get_seconds_remaining (now : Int) (end_time : Option Int) : Int :=
  match end_time with
  | none => 999
  | some e => max 0 (e - now)

/-- The evaluator's time gate (src/engine.py lines 1676-1679): reject
when fewer than MIN_TIME_REMAINING seconds remain, except for the
unknown-expiry sentinel 999. -/
def eval_time_reject (seconds_remaining : Int) : Bool :=
  decide (seconds_remaining < MIN_TIME_REMAINING ∧ seconds_remaining ≠ 999)

/-- The execution gate's SAFETY LAYER 1 time cutoff (src/engine.py lines
2428-2436): skip the trade when fewer than MIN_SECONDS_TO_OPEN_TRADE
seconds remain, except for the unknown-expiry sentinel 999. -/
def exec_gate_time_skip (seconds_remaining : Int) : Bool :=
  decide (seconds_remaining < MIN_SECONDS_TO_OPEN_TRADE ∧ seconds_remaining ≠ 999)

/-! ### Opportunity evaluator (src/engine.py lines 1653-1926) -/

/-- The evaluator's position-based pair cost (src/engine.py lines
1714-1718): the ledger pair cost once both legs are funded, else 1.0
("no pair yet, treat as expensive"). -/
def current_pair_cost_of (mstate : MState) : ℚ :=
  if mstate.shares_up > 0 ∧ mstate.shares_down > 0 then
    (calculate_metrics mstate).avg_pair_cost
  else 1

/-- The trade-details dict returned by evaluate_auto_trade (src/engine.py
lines 1913-1926). -/
structure TradeIntent where
  coin : String
  condition_id : String
  side : Side
  token_id : String
  trade_usd : ℚ
  current_pair : ℚ
  projected_pair : ℚ
  improvement : ℚ
  seconds_remaining : Int
  market_slug : String
  market_pair_cost : ℚ
  price : ℚ
  deriving DecidableEq, Repr

/-- The urgency multiplier of the dynamic sizing (src/engine.py lines
1780-1785): 1.0 above pair cost 0.980, 0.85 above 0.975, else 0.6. -/
def urgency_multiplier (current_pair_cost : ℚ) : ℚ :=
  if current_pair_cost > 0.980 then 1
  else if current_pair_cost > 0.975 then 0.85
  else 0.6

/-- The sized trade amount (src/engine.py lines 1777-1788):
base = available × MAX_TRADE_PCT, scaled by the urgency multiplier and
clamped to [MIN_TRADE_USD, MAX_TRADE_USD]. -/
def sized_trade_usd (available_usdc : ℚ) (current_pair_cost : ℚ) : ℚ :=
  max MIN_TRADE_USD
    (min MAX_TRADE_USD (available_usdc * MAX_TRADE_PCT * urgency_multiplier current_pair_cost))

/-- The projected average cost of the cheaper leg after the trade
(src/engine.py lines 1794-1797): new weighted average from the added
shares (trade_usd / price) and added spend. -/
def projected_avg (current_shares current_spent trade_usd price : ℚ) : ℚ :=
  (current_spent + trade_usd) / (current_shares + trade_usd / price)

/-- The projected pair cost after buying the cheaper side (src/engine.py
lines 1749-1803): new weighted average on the cheaper leg plus the
unchanged other leg's average (0.5 standing in when the other leg is
unfunded). -/
def projected_pair_of (mstate : MState) (up_price down_price trade_usd : ℚ) : ℚ :=
  if up_price < down_price then
    projected_avg mstate.shares_up mstate.spent_up trade_usd up_price
      + (if mstate.shares_down > 0 then (calculate_metrics mstate).avg_down else 0.5)
  else
    (if mstate.shares_up > 0 then (calculate_metrics mstate).avg_up else 0.5)
      + projected_avg mstate.shares_down mstate.spent_down trade_usd down_price

/-- The current imbalance in USD terms (src/engine.py line 1772). -/
def current_imbalance_usd_of (mstate : MState) (up_price down_price : ℚ) : ℚ :=
  |mstate.shares_up * up_price - mstate.shares_down * down_price|

/-- evaluate_auto_trade (src/engine.py lines 1653-1926).  Pure decision
function; the instrumentation-only eval_logs writes (safe_call
log_eval_decision) and debug logging do not affect control flow and are
not modelled.  The sizing and projection formulas are factored into the
named helpers directly above, each matching its source lines. -/
def evaluate_auto_trade (now : Int) (market : Market) (mstate : MState)
    (available_usdc : ℚ) : Option TradeIntent :=
  if ¬ market.active then none else
  match market.condition_id with
  | none => none
  | some condition_id =>
    let seconds_remaining := get_seconds_remaining now market.end_time
    if eval_time_reject seconds_remaining then none else
    let current_pair_cost := current_pair_cost_of mstate
    if current_pair_cost ≤ TARGET_PAIR_COST then none else
    match market.up_price, market.down_price with
    | none, _ => none
    | some _, none => none
    | some up_price, some down_price =>
      if up_price ≤ 0 ∨ down_price ≤ 0 then none else
      if up_price + down_price ≥ 1 then none else
      let cheaper_side : Side := if up_price < down_price then Side.up else Side.down
      let cheaper_price := if up_price < down_price then up_price else down_price
      let cheaper_token_id :=
        if up_price < down_price then market.up_token_id else market.down_token_id
      match cheaper_token_id with
      | none => none
      | some token_id =>
        let trade_usd := sized_trade_usd available_usdc current_pair_cost
        if trade_usd > available_usdc then none else
        let projected_pair := projected_pair_of mstate up_price down_price trade_usd
        let improvement := current_pair_cost - projected_pair
        if improvement < MIN_IMPROVEMENT_REQUIRED then none else
        if projected_pair > TARGET_PAIR_COST then none else
        if current_imbalance_usd_of mstate up_price down_price + trade_usd
            > available_usdc * MAX_DIRECTIONAL_RISK_PCT then none else
        some { coin := market.coin, condition_id := condition_id, side := cheaper_side,
               token_id := token_id, trade_usd := trade_usd,
               current_pair := current_pair_cost, projected_pair := projected_pair,
               improvement := improvement, seconds_remaining := seconds_remaining,
               market_slug := market.slug.getD "",
               market_pair_cost := up_price + down_price,
               price := cheaper_price }

/-! ### Directional exposure check (src/engine.py lines 1385-1453) -/

/-- check_directional_exposure (src/engine.py lines 1385-1453), SAFETY
LAYER 4.  Returns (is_allowed, current_exposure_usd); the human-readable
reason string is log-only and not modelled, and the spot_price parameter
is unused in the source body.  In the source both branches of the
net_shares sign analysis compute the same projected value per side, which
the single expression per side reproduces. -/
def check_directional_exposure (state : EngineState) (condition_id : String)
    (proposed_side : Side) (proposed_usd : ℚ) (bankroll : ℚ) : Bool × ℚ :=
  let pos := state.get_position condition_id
  let net_shares := pos.net_directional_shares
  let current_exposure_usd := |net_shares| * 0.50
  let max_exposure_usd := bankroll * MAX_DIRECTIONAL_EXPOSURE_FRACTION
  let projected_net_shares :=
    match proposed_side with
    | Side.up => net_shares + proposed_usd / 0.50
    | Side.down => net_shares - proposed_usd / 0.50
  let projected_exposure_usd := |projected_net_shares| * 0.50
  if projected_exposure_usd > max_exposure_usd then (false, current_exposure_usd)
  else (true, current_exposure_usd)

/-! ### Pre-trade safety and the order executor (src/engine.py 1628-2041) -/

/-- check_safety (src/engine.py lines 1628-1650): time cutoff with the
999 sentinel exemption, then the imbalance brake on the heavier side. -/
def check_safety (mstate : MState) (side : Side) (seconds_remaining : Int) : Bool × String :=
  if seconds_remaining < NO_TRADE_SECONDS ∧ seconds_remaining ≠ 999 then
    (false, "Trading disabled")
  else
    let shares_up := mstate.shares_up
    let shares_down := mstate.shares_down
    let current_imbalance := |shares_up - shares_down|
    let heavier_side : Option Side :=
      if shares_up > shares_down then some Side.up
      else if shares_down > shares_up then some Side.down
      else none
    if heavier_side = some side then
      if current_imbalance ≥ MAX_IMBALANCE then (false, "Max imbalance")
      else if current_imbalance ≥ WARN_IMBALANCE then (false, "Imbalance warning")
      else (true, "")
    else (true, "")

/-- Decimal rounding to 3 places as used on the execution price
(round(best_ask + PRICE_SLIPPAGE, 3)); modelled as round-half-up, which
agrees with the source except exactly halfway between two multiples of
0.001 (the source rounds half to even there). -/
def round3 (q : ℚ) : ℚ :=
  (Int.floor (q * 1000 + 1/2) : ℚ) / 1000

/-- The order-placement response dict: order_id models the "orderID" key
(none when the key is absent), transaction_hash collapses the
"transactionHash" / "transactHash" alternatives. -/
structure OrderResponse where
  order_id : Option String
  transaction_hash : Option String
  deriving DecidableEq, Repr

/-- The three fallible collaborator calls execute_market_buy makes, one
field per call site: the order-book fetch (list of ask prices, error =
raised exception), order posting (error = raised exception, ok none =
falsy response), and the fill-status query (ok = size_matched, error =
raised exception). -/
structure BuyEnv where
  order_book : Except String (List ℚ)
  post_order : Except String (Option OrderResponse)
  order_status : Except String ℚ
  deriving Repr

/-- The tuple returned by execute_market_buy:
(success, message, filled_shares, actual_cost, tx_hash). -/
structure BuyResult where
  success : Bool
  message : String
  filled_shares : ℚ
  actual_cost : ℚ
  tx_hash : Option String
  deriving DecidableEq, Repr

/-- execute_market_buy (src/engine.py lines 1929-2000).  Message strings
are abbreviated (the source interpolates details into them).  Note the
fill-status fallback of lines 1986-1990: if the order-status query
raises, the filled size is assumed to be the full requested size. -/
def execute_market_buy (env : BuyEnv) (cost_usd : ℚ) (mstate : MState) (side : Side)
    (seconds_remaining : Int) : BuyResult :=
  let safety := check_safety mstate side seconds_remaining
  if ¬ safety.1 then
    { success := false, message := safety.2, filled_shares := 0, actual_cost := 0,
      tx_hash := none }
  else
    match env.order_book with
    | Except.error _ =>
        { success := false, message := "Order book error", filled_shares := 0,
          actual_cost := 0, tx_hash := none }
    | Except.ok asks =>
      match asks with
      | [] =>
          { success := false, message := "No asks available", filled_shares := 0,
            actual_cost := 0, tx_hash := none }
      | best_ask :: _ =>
        let exec_price := min (round3 (best_ask + PRICE_SLIPPAGE)) 0.99
        let size := cost_usd / best_ask
        if size < 0.01 then
          { success := false, message := "Order too small", filled_shares := 0,
            actual_cost := 0, tx_hash := none }
        else
          match env.post_order with
          | Except.error _ =>
              { success := false, message := "Order API error", filled_shares := 0,
                actual_cost := 0, tx_hash := none }
          | Except.ok none =>
              { success := false, message := "Order failed", filled_shares := 0,
                actual_cost := 0, tx_hash := none }
          | Except.ok (some response) =>
            match response.order_id with
            | none =>
                { success := false, message := "Order failed", filled_shares := 0,
                  actual_cost := 0, tx_hash := none }
            | some order_id =>
              let tx_hash := response.transaction_hash.getD order_id
              let filled_size :=
                match env.order_status with
                | Except.ok size_matched => size_matched
                | Except.error _ => size
              if filled_size ≤ 0 then
                { success := false, message := "Order not filled", filled_shares := 0,
                  actual_cost := 0, tx_hash := some tx_hash }
              else
                { success := true, message := "Bought",
                  filled_shares := filled_size,
                  actual_cost := filled_size * exec_price,
                  tx_hash := some tx_hash }

/-- The tuple returned by execute_auto_trade:
(success, message, actual_cost, filled_shares, locked_profit, tx_hash). -/
structure AutoTradeResult where
  success : Bool
  message : String
  actual_cost : ℚ
  filled_shares : ℚ
  locked_profit : ℚ
  tx_hash : Option String
  deriving DecidableEq, Repr

/-- execute_auto_trade (src/engine.py lines 2003-2041): runs the buy and,
only on a successful buy with a truthy condition_id, applies the fill to
the ledger and bumps total_trades. -/
def execute_auto_trade (st : EngineState) (env : BuyEnv) (trade_info : TradeIntent)
    (mstate : MState) : EngineState × AutoTradeResult :=
  let r := execute_market_buy env trade_info.trade_usd mstate trade_info.side
    trade_info.seconds_remaining
  if r.success ∧ trade_info.condition_id ≠ "" then
    let st1 := st.update_position trade_info.condition_id trade_info.side
      r.filled_shares r.actual_cost
    let st2 := { st1 with total_trades := st1.total_trades + 1 }
    let lp := calculate_locked_profit (st2.get_market trade_info.condition_id trade_info.coin)
    (st2, { success := true, message := "AUTO", actual_cost := r.actual_cost,
            filled_shares := r.filled_shares, locked_profit := lp, tx_hash := r.tx_hash })
  else
    (st, { success := false, message := r.message, actual_cost := 0, filled_shares := 0,
           locked_profit := 0, tx_hash := r.tx_hash })

/-! ### Push-price freshness (src/ws_client.py 94-127, src/engine.py 1525-1551) -/

/-- A Price Cache entry written by the push listener: timestamp, best bid
and best ask. -/
structure WsData where
  ts : ℚ
  best_bid : ℚ
  best_ask : ℚ
  deriving DecidableEq, Repr

/-- get_ws_price (src/ws_client.py lines 94-109): the stored entry for a
token, or none when there is no data or the data is older than 1.5
seconds. -/
def get_ws_price (now : ℚ) (data : Option WsData) : Option WsData :=
  match data with
  | none => none
  | some d => if now - d.ts > 1.5 then none else some d

/-- is_ws_fresh (src/ws_client.py lines 112-127): whether data exists and
its age is at most max_age. -/
def is_ws_fresh (now : ℚ) (data : Option WsData) (max_age : ℚ) : Bool :=
  match data with
  | none => false
  | some d => decide (now - d.ts ≤ max_age)

/-- The per-token source decision of fetch_all_asks (src/engine.py lines
1525-1580): use the push best ask when the entry is present, fresh within
1.5 s and positive; otherwise fall back to the HTTP poll result for that
token (itself absent when the poll fails).  Returns the chosen ask and a
flag that is true when the push source served it. -/
def fetch_ask_for_token (now : ℚ) (data : Option WsData) (http_ask : Option ℚ) :
    Option (ℚ × Bool) :=
  let ws_choice : Option ℚ :=
    match get_ws_price now data with
    | none => none
    | some ws_data =>
      if is_ws_fresh now data 1.5 ∧ ws_data.best_ask > 0 then some ws_data.best_ask
      else none
  match ws_choice with
  | some p => some (p, true)
  | none =>
    match http_ask with
    | some p => some (p, false)
    | none => none

/-! ### Market discovery (src/engine.py lines 1236-1297, 2138-2163) -/

/-- The waiting placeholder run_market_discovery appends for a symbol
whose discovery found no active market (src/engine.py lines 1266-1278). -/
def placeholder_market (coin : String) : Market :=
  { condition_id := none, coin := coin.toUpper,
    question := coin.toUpper ++ " Up or Down - Waiting...",
    slug := none, end_time := none, up_token_id := none, down_token_id := none,
    up_price := some 0.5, down_price := some 0.5, active := false,
    midpoint_timestamp := 0 }

/-- The coin_order sort key of run_market_discovery (line 1281), default
99 for unknown coins. -/
def coin_order (coin : String) : Nat :=
  if coin = "BTC" then 0
  else if coin = "ETH" then 1
  else if coin = "SOL" then 2
  else if coin = "XRP" then 3
  else 99

/-- Stable insertion of an element into a list sorted by key: the element
goes after every element with a strictly smaller key and before the first
element with an equal or larger key that followed it. -/
def stable_insert_by (key : Market → Nat) (a : Market) : List Market → List Market
  | [] => [a]
  | b :: l => if key b < key a then b :: stable_insert_by key a l else a :: b :: l

/-- Python's stable list.sort(key=...) modelled as stable insertion
sort. -/
def stable_sort_by (key : Market → Nat) : List Market → List Market
  | [] => []
  | a :: l => stable_insert_by key a (stable_sort_by key l)

/-- run_market_discovery (src/engine.py lines 1236-1297): for each
expected symbol, the found market or the waiting placeholder, sorted by
coin_order; logging is side-effect-free.  The per-symbol lookup
find_active_market_for_coin is abstracted as the found argument (its
failure modes all surface as none). -/
def run_market_discovery (found : String → Option Market) : List Market :=
  let all_markets := SLUG_COINS.map fun coin =>
    match found coin with
    | some m => m
    | none => placeholder_market coin
  stable_sort_by (fun m => coin_order m.coin) all_markets

/-- The active-market count reported after each discovery (line 1285 and
run_engine lines 2095, 2171, 2209). -/
def active_count (markets : List Market) : Nat :=
  (markets.filter fun m => m.active).length

/-- The MARKET_HEALTH warning condition (src/engine.py lines 1287-1293):
a warning is logged when fewer than 4 of the expected symbols are active;
run_market_discovery still returns normally. -/
def market_health_warning (markets : List Market) : Bool :=
  decide (active_count markets < 4)

/-- The cache update in run_engine (lines 2138-2163): a discovery whose
whole call failed (safe_call returned the none default) or returned a
falsy (empty) list keeps the prior cached set; otherwise the returned
list replaces the cache wholesale. -/
def update_cached_markets (old : List Market) (discovered : Option (List Market)) :
    List Market :=
  match discovered with
  | none => old
  | some new_markets => if new_markets.isEmpty then old else new_markets

/-! ### The execution gate of run_engine (src/engine.py lines 2388-2696) -/

/-- The data the execution gate reads for one TradeIntent in the
per-opportunity loop (lines 2408-2459): whether the intent's market was
found in the current market list (lines 2422-2424), the intent's
seconds_remaining, the sampled order-book age
(state.get_orderbook_age), and the fields the exposure recheck needs. -/
structure GateOpp where
  market_found : Bool
  seconds_remaining : Int
  book_age : ℚ
  condition_id : String
  side : Side
  trade_usd : ℚ
  deriving Repr

/-- Whether one opportunity clears every per-intent gate check of lines
2422-2459: market found, SAFETY LAYER 1 (time cutoff with sentinel
exemption), SAFETY LAYER 2 (book age at most MAX_BOOK_AGE_SECONDS), and
SAFETY LAYER 4 (directional exposure recheck against the current
ledger). -/
def gate_clears (usdc : ℚ) (st : EngineState) (o : GateOpp) : Bool :=
  o.market_found
  && ! exec_gate_time_skip o.seconds_remaining
  && decide (o.book_age ≤ MAX_BOOK_AGE_SECONDS)
  && (check_directional_exposure st o.condition_id o.side o.trade_usd usdc).1

/-- The per-opportunity loop of lines 2408-2690: opportunities failing a
gate are skipped (continue); the first opportunity clearing every gate is
attempted and the loop breaks (ONE TRADE PER TICK MAX).  Returns the list
of attempted opportunities. -/
def exec_loop (usdc : ℚ) (st : EngineState) : List GateOpp → List GateOpp
  | [] => []
  | o :: rest => if gate_clears usdc st o then [o] else exec_loop usdc st rest

/-- One tick's inputs to the trading section (lines 2388-2696):
tick_start is the tick's timestamp, available = usdc - 5 the evaluable
capital, opps the evaluator's opportunity list in market order, and
attempt_time the time.time() value written to last_trade_time when an
attempt is made this tick (lines 2589 and 2686, both modes, success or
failure). -/
structure Tick where
  tick_start : ℚ
  available : ℚ
  usdc : ℚ
  opps : List GateOpp
  attempt_time : ℚ

/-- The trading section of one tick (lines 2388-2696): skip when capital
is short, skip the whole tick while the cooldown since last_trade_time
has not elapsed, otherwise attempt the first gate-clearing opportunity
and record the attempt time.  Ledger and audit effects of the attempt
itself are modelled by execute_auto_trade and are orthogonal to the
rate-limiting state this model tracks. -/
def run_tick (st : EngineState) (tk : Tick) : EngineState × List GateOpp :=
  if tk.available < MIN_TRADE_USD then (st, [])
  else if tk.tick_start - st.last_trade_time < AUTO_TRADE_COOLDOWN then (st, [])
  else
    match exec_loop tk.usdc st tk.opps with
    | [] => (st, [])
    | attempts => ({ st with last_trade_time := tk.attempt_time }, attempts)

/-- The engine loop over successive ticks, returning the times at which
trade attempts were issued. -/
def run_ticks (st : EngineState) : List Tick → List ℚ
  | [] => []
  | tk :: rest =>
    let r := run_tick st tk
    match r.2 with
    | [] => run_ticks r.1 rest
    | _ => tk.attempt_time :: run_ticks r.1 rest

/-- The failed-live-trade tail of run_engine (lines 2661-2687): after a
failed live attempt at time now, line 2684 writes now + 60 into
last_trade_time when the error message indicates a rate limit (403), and
line 2686 then unconditionally writes now.  The value the state ends the
tick with is the final write. -/
def live_failure_last_trade_time (now : ℚ) (rate_limited : Bool) (prev : ℚ) : ℚ :=
  let _after_rate_limit_check := if rate_limited then now + 60 else prev
  let after_unconditional_write := now
  after_unconditional_write

/-- What line 2684 alone intends: the extended cooldown origin on a
rate-limited failure. -/
def rate_limit_extended_time (now : ℚ) (rate_limited : Bool) (prev : ℚ) : ℚ :=
  if rate_limited then now + 60 else prev

/-! ### Concrete fixtures used by witnesses and counterexamples -/

/-- A fill as passed to update_position. -/
structure Fill where
  condition_id : String
  side : Side
  shares : ℚ
  cost : ℚ
  deriving DecidableEq, Repr

/-- A sequence of fills applied through update_position. -/
def EngineState.apply_fills (s : EngineState) (fills : List Fill) : EngineState :=
  fills.foldl (fun st f => st.update_position f.condition_id f.side f.shares f.cost) s

/-- An active BTC market as discovery builds it. -/
def exampleMarket : Market :=
  { condition_id := some "0xc", coin := "BTC", question := "BTC Up or Down",
    slug := some "btc-updown-15m-1", end_time := some 600,
    up_token_id := some "111", down_token_id := some "222",
    up_price := some 0.47, down_price := some 0.5, active := true,
    midpoint_timestamp := 0 }

/-- The TradeIntent evaluate_auto_trade returns on exampleMarket with no
prior position and 1000 USDC available at time 0. -/
def exampleIntent : TradeIntent :=
  { coin := "BTC", condition_id := "0xc", side := Side.up, token_id := "111",
    trade_usd := 100, current_pair := 1, projected_pair := 0.97,
    improvement := 0.03, seconds_remaining := 600,
    market_slug := "btc-updown-15m-1", market_pair_cost := 0.97, price := 0.47 }

/-- A buy environment whose order posting succeeds but whose fill-status
query raises: the path of src/engine.py lines 1986-1990. -/
def cexBuyEnv : BuyEnv :=
  { order_book := Except.ok [0.5],
    post_order := Except.ok (some { order_id := some "oid1", transaction_hash := none }),
    order_status := Except.error "timeout" }

/-- A buy environment whose order-book fetch raises. -/
def failBuyEnv : BuyEnv :=
  { order_book := Except.error "boom",
    post_order := Except.ok none,
    order_status := Except.error "x" }

/-- Whether the fill-status query of a buy environment raised. -/
def order_status_failed (env : BuyEnv) : Bool :=
  match env.order_status with
  | Except.error _ => true
  | Except.ok _ => false

/-- A trade intent handed to the executor. -/
def cexIntent : TradeIntent :=
  { coin := "BTC", condition_id := "c", side := Side.up, token_id := "111",
    trade_usd := 10, current_pair := 1, projected_pair := 0.97,
    improvement := 0.03, seconds_remaining := 600, market_slug := "s",
    market_pair_cost := 0.97, price := 0.5 }

/-- An opportunity that clears every execution-gate check. -/
def gateOppOk : GateOpp :=
  { market_found := true, seconds_remaining := 600, book_age := 1,
    condition_id := "c", side := Side.up, trade_usd := 10 }

/-- A tick whose start falls within the cooldown window of an engine
state with last_trade_time 0. -/
def tkBlocked : Tick :=
  { tick_start := 10, available := 100, usdc := 105, opps := [gateOppOk],
    attempt_time := 10 }

/-- A tick outside the cooldown window carrying one clearing
opportunity. -/
def tkSecond : Tick :=
  { tick_start := 20, available := 100, usdc := 105, opps := [gateOppOk],
    attempt_time := 21 }

/-- A tick 20 seconds after a rate-limited live failure at time 1000. -/
def tkAfterRateLimit : Tick :=
  { tick_start := 1020, available := 995, usdc := 1000, opps := [gateOppOk],
    attempt_time := 1021 }

/-- The engine state right after a live trade failed with a 403 at time
1000 (the value run_engine leaves in last_trade_time). -/
def stAfter403 : EngineState :=
  { EngineState.init with
      last_trade_time := live_failure_last_trade_time 1000 true 0 }

/-- A discovered ETH market. -/
def ethFound : Market :=
  { condition_id := some "0xe", coin := "ETH", question := "ETH Up or Down",
    slug := some "eth-updown-15m-1", end_time := some 600,
    up_token_id := some "311", down_token_id := some "322",
    up_price := some 0.48, down_price := some 0.5, active := true,
    midpoint_timestamp := 0 }

/-- A discovered SOL market. -/
def solFound : Market :=
  { condition_id := some "0xs", coin := "SOL", question := "SOL Up or Down",
    slug := some "sol-updown-15m-1", end_time := some 600,
    up_token_id := some "411", down_token_id := some "422",
    up_price := some 0.49, down_price := some 0.5, active := true,
    midpoint_timestamp := 0 }

/-- A discovered XRP market. -/
def xrpFound : Market :=
  { condition_id := some "0xr", coin := "XRP", question := "XRP Up or Down",
    slug := some "xrp-updown-15m-1", end_time := some 600,
    up_token_id := some "511", down_token_id := some "522",
    up_price := some 0.46, down_price := some 0.5, active := true,
    midpoint_timestamp := 0 }

/-- A discovery round in which BTC fails and the other three symbols
succeed. -/
def cexFound : String → Option Market := fun coin =>
  if coin = "eth" then some ethFound
  else if coin = "sol" then some solFound
  else if coin = "xrp" then some xrpFound
  else none

/-- The prior cached market set, in which BTC is active (exampleMarket is
the prior BTC market). -/
def cexOldMarkets : List Market := [exampleMarket, ethFound, solFound, xrpFound]

/-! ### Helper lemmas -/

/-- Every division calculate_metrics performs sits under a guard that
makes its denominator nonzero: the checked variant never fails and agrees
with the direct computation on every input. -/
theorem calculate_metrics_checked_eq (m : MState) :
    calculate_metrics_checked m = some (calculate_metrics m) := by
  unfold calculate_metrics_checked calculate_metrics safeDiv
  by_cases hu : m.shares_up > 0 <;> by_cases hd : m.shares_down > 0
  · simp [hu, hd, hu.ne', hd.ne', Option.bind]
  · simp [hu, hd, hu.ne', Option.bind]
  · simp [hu, hd, hd.ne', Option.bind]
  · simp [hu, hd, Option.bind]

/-- locked_shares as reported by calculate_metrics is exactly
min(shares_up, shares_down). -/
theorem locked_shares_eq (m : MState) :
    (calculate_metrics m).locked_shares = min m.shares_up m.shares_down := rfl

/-- get_market and get_position read the same underlying share counts. -/
theorem get_market_shares (s : EngineState) (cid : String) :
    (s.get_market cid "").shares_up = (s.get_position cid).shares_up
    ∧ (s.get_market cid "").shares_down = (s.get_position cid).shares_down := by
  cases hm : s.positions cid <;>
    simp [EngineState.get_market, EngineState.get_position, hm, initMState]

/-- One update_position call never decreases either leg's share count in
any market, provided the applied share delta is non-negative. -/
theorem update_position_mono (s : EngineState) (cid tcid : String) (side : Side)
    (shares cost : ℚ) (hsh : 0 ≤ shares) :
    (s.get_position cid).shares_up
      ≤ ((s.update_position tcid side shares cost).get_position cid).shares_up
    ∧ (s.get_position cid).shares_down
      ≤ ((s.update_position tcid side shares cost).get_position cid).shares_down := by
  unfold EngineState.update_position EngineState.get_position
  by_cases h : cid = tcid
  · subst h
    cases side <;> cases hm : s.positions cid <;> simp [hm, initMState] <;> linarith
  · simp [h]

/-! ### Claim theorems -/

/-- Claim C3: for every sequence of fills applied via update_position,
each with non-negative shares and cost, shares_up and shares_down are
non-decreasing, and after every update calculate_metrics reports
locked_shares equal to min(shares_up, shares_down).  The start state is
arbitrary, so the monotonicity conclusion covers every prefix of a fill
sequence. -/
theorem fills_monotone_and_locked_shares (s : EngineState) (fills : List Fill)
    (cid : String) (h : ∀ f ∈ fills, 0 ≤ f.shares ∧ 0 ≤ f.cost) :
    (s.get_position cid).shares_up ≤ ((s.apply_fills fills).get_position cid).shares_up
    ∧ (s.get_position cid).shares_down
        ≤ ((s.apply_fills fills).get_position cid).shares_down
    ∧ (calculate_metrics ((s.apply_fills fills).get_market cid "")).locked_shares
        = min ((s.apply_fills fills).get_position cid).shares_up
              ((s.apply_fills fills).get_position cid).shares_down := by
  induction fills generalizing s with
  | nil =>
    refine ⟨le_refl _, le_refl _, ?_⟩
    rw [locked_shares_eq, (get_market_shares (s.apply_fills []) cid).1,
      (get_market_shares (s.apply_fills []) cid).2]
  | cons f rest ih =>
    have hf := h f (List.mem_cons_self f rest)
    have hrest : ∀ g ∈ rest, 0 ≤ g.shares ∧ 0 ≤ g.cost :=
      fun g hg => h g (List.mem_cons_of_mem f hg)
    have hstep := update_position_mono s cid f.condition_id f.side f.shares f.cost hf.1
    have htail := ih (s.update_position f.condition_id f.side f.shares f.cost) hrest
    have happ : s.apply_fills (f :: rest)
        = (s.update_position f.condition_id f.side f.shares f.cost).apply_fills rest := rfl
    rw [happ]
    exact ⟨le_trans hstep.1 htail.1, le_trans hstep.2 htail.2.1, htail.2.2⟩

/-- Witness for C3: two concrete fills on one market from the empty
state. -/
theorem fills_monotone_and_locked_shares_witness :
    (EngineState.init.get_position "c").shares_up
      ≤ ((EngineState.init.apply_fills
            [⟨"c", Side.up, 3, 1⟩, ⟨"c", Side.down, 2, 1⟩]).get_position "c").shares_up
    ∧ (EngineState.init.get_position "c").shares_down
      ≤ ((EngineState.init.apply_fills
            [⟨"c", Side.up, 3, 1⟩, ⟨"c", Side.down, 2, 1⟩]).get_position "c").shares_down
    ∧ (calculate_metrics ((EngineState.init.apply_fills
            [⟨"c", Side.up, 3, 1⟩, ⟨"c", Side.down, 2, 1⟩]).get_market "c" "")).locked_shares
        = min ((EngineState.init.apply_fills
            [⟨"c", Side.up, 3, 1⟩, ⟨"c", Side.down, 2, 1⟩]).get_position "c").shares_up
              ((EngineState.init.apply_fills
            [⟨"c", Side.up, 3, 1⟩, ⟨"c", Side.down, 2, 1⟩]).get_position "c").shares_down :=
  fills_monotone_and_locked_shares EngineState.init
    [⟨"c", Side.up, 3, 1⟩, ⟨"c", Side.down, 2, 1⟩] "c" (by decide)

/-- Claim C4: when either leg has zero shares, the reported pair cost is
the undefined sentinel 0, locked profit is 0, the evaluator treats the
position pair cost as 1.0 (no edge), and no division by zero occurs in
the metrics computation (the checked variant, which fails on any
zero-denominator division, succeeds and agrees). -/
theorem single_leg_pair_cost_undefined (m : MState)
    (h : m.shares_up = 0 ∨ m.shares_down = 0) :
    calculate_metrics_checked m = some (calculate_metrics m)
    ∧ (calculate_metrics m).avg_pair_cost = 0
    ∧ (calculate_metrics m).locked_profit = 0
    ∧ current_pair_cost_of m = 1 := by
  refine ⟨calculate_metrics_checked_eq m, ?_, ?_, ?_⟩ <;>
    rcases h with h | h <;> simp [calculate_metrics, current_pair_cost_of, h]

/-- Witness for C4: a position funded only on the down leg. -/
theorem single_leg_pair_cost_undefined_witness :
    calculate_metrics_checked ⟨"", 0, 0, 5, 2⟩ = some (calculate_metrics ⟨"", 0, 0, 5, 2⟩)
    ∧ (calculate_metrics ⟨"", 0, 0, 5, 2⟩).avg_pair_cost = 0
    ∧ (calculate_metrics ⟨"", 0, 0, 5, 2⟩).locked_profit = 0
    ∧ current_pair_cost_of ⟨"", 0, 0, 5, 2⟩ = 1 :=
  single_leg_pair_cost_undefined ⟨"", 0, 0, 5, 2⟩ (Or.inl rfl)

/-- Claim C7: a push price whose age exceeds 1.5 seconds is treated as
absent by every consumer: get_ws_price returns none, is_ws_fresh reports
false, and the per-token ask-fetching decision behaves exactly as if no
push entry existed, falling back to the HTTP poll value. -/
theorem stale_push_price_absent (now : ℚ) (d : WsData) (http_ask : Option ℚ)
    (h : now - d.ts > 1.5) :
    get_ws_price now (some d) = none
    ∧ is_ws_fresh now (some d) 1.5 = false
    ∧ fetch_ask_for_token now (some d) http_ask = fetch_ask_for_token now none http_ask := by
  have h1 : get_ws_price now (some d) = none := by simp [get_ws_price, h]
  have h2 : is_ws_fresh now (some d) 1.5 = false := by
    simp only [is_ws_fresh, decide_eq_false_iff_not, not_le]
    exact h
  refine ⟨h1, h2, ?_⟩
  simp [fetch_ask_for_token, get_ws_price, h]

/-- Witness for C7: an entry written at time 0 read at time 2, with an
HTTP poll value 0.5 available. -/
theorem stale_push_price_absent_witness :
    get_ws_price 2 (some ⟨0, 0.4, 0.6⟩) = none
    ∧ is_ws_fresh 2 (some ⟨0, 0.4, 0.6⟩) 1.5 = false
    ∧ fetch_ask_for_token 2 (some ⟨0, 0.4, 0.6⟩) (some 0.5)
        = fetch_ask_for_token 2 none (some 0.5) :=
  stale_push_price_absent 2 ⟨0, 0.4, 0.6⟩ (some 0.5) (by norm_num)

/-- Claim C9: for a market with no prior position, the directional
exposure check rejects any proposed trade of X USD with
X > 0.35 × bankroll. -/
theorem no_position_directional_cap (s : EngineState) (cid : String) (side : Side)
    (usd bankroll : ℚ)
    (hup : (s.get_position cid).shares_up = 0)
    (hdown : (s.get_position cid).shares_down = 0)
    (husd : 0 ≤ usd)
    (hexceeds : usd > MAX_DIRECTIONAL_EXPOSURE_FRACTION * bankroll) :
    (check_directional_exposure s cid side usd bankroll).1 = false := by
  have hnet : (s.get_position cid).net_directional_shares = 0 := by
    have hformula : (s.get_position cid).net_directional_shares
        = (s.get_position cid).shares_up - (s.get_position cid).shares_down := by
      cases hm : s.positions cid <;> simp [EngineState.get_position, hm]
    rw [hformula, hup, hdown, sub_zero]
  have habs : ∀ x : ℚ, 0 ≤ x → |x / (0.50 : ℚ)| * 0.50 = x := by
    intro x hx
    rw [abs_of_nonneg (div_nonneg hx (by norm_num))]
    ring
  simp only [check_directional_exposure]
  rw [hnet]
  cases side
  case up =>
    have hcond : |(0 : ℚ) + usd / 0.50| * 0.50 > bankroll * MAX_DIRECTIONAL_EXPOSURE_FRACTION := by
      rw [zero_add, habs usd husd]
      linarith [hexceeds]
    rw [if_pos hcond]
  case down =>
    have hcond : |(0 : ℚ) - usd / 0.50| * 0.50 > bankroll * MAX_DIRECTIONAL_EXPOSURE_FRACTION := by
      rw [zero_sub, abs_neg, habs usd husd]
      linarith [hexceeds]
    rw [if_pos hcond]

/-- Witness for C9: 400 USD proposed against a 1000 USD bankroll
(cap 350) with no prior position. -/
theorem no_position_directional_cap_witness :
    (check_directional_exposure EngineState.init "c" Side.up 400 1000).1 = false :=
  no_position_directional_cap EngineState.init "c" Side.up 400 1000
    rfl rfl (by norm_num) (by norm_num [MAX_DIRECTIONAL_EXPOSURE_FRACTION])

/-- Claim C10: a missing (or unprocessable) expiry yields the sentinel
999 seconds remaining, and both time gates - the evaluator's 90-second
minimum and the execution gate's 25-second cutoff - explicitly exempt the
sentinel, so a market with unknown expiry passes both time checks. -/
theorem unknown_expiry_sentinel_passes_time_gates (now : Int) :
    get_seconds_remaining now none = 999
    ∧ eval_time_reject (get_seconds_remaining now none) = false
    ∧ exec_gate_time_skip (get_seconds_remaining now none) = false :=
  ⟨rfl, rfl, rfl⟩

set_option maxHeartbeats 1000000 in
/-- Claim C1: evaluate_auto_trade never returns a TradeIntent when the
market's computed time remaining is below 90 seconds, when the projected
pair cost after the trade exceeds the 0.982 target, or when the
improvement is below 0.004; whenever it does return an intent, all three
gates held. -/
theorem evaluator_safety_ladder (now : Int) (market : Market) (mstate : MState)
    (available_usdc : ℚ) (intent : TradeIntent)
    (h : evaluate_auto_trade now market mstate available_usdc = some intent) :
    ¬ get_seconds_remaining now market.end_time < MIN_TIME_REMAINING
    ∧ intent.projected_pair ≤ TARGET_PAIR_COST
    ∧ intent.improvement ≥ MIN_IMPROVEMENT_REQUIRED := by
  unfold evaluate_auto_trade at h
  simp only [] at h
  split at h
  · exact Option.noConfusion h
  split at h
  · exact Option.noConfusion h
  rename_i condition_id
  split at h
  · rename_i htime
    exact Option.noConfusion h
  rename_i htime
  split at h
  · exact Option.noConfusion h
  split at h
  · exact Option.noConfusion h
  · exact Option.noConfusion h
  rename_i up_price down_price
  split at h
  · exact Option.noConfusion h
  split at h
  · exact Option.noConfusion h
  split at h
  · exact Option.noConfusion h
  rename_i token_id
  split at h
  · exact Option.noConfusion h
  split at h
  · rename_i himp
    exact Option.noConfusion h
  rename_i himp
  split at h
  · rename_i hproj
    exact Option.noConfusion h
  rename_i hproj
  split at h
  · exact Option.noConfusion h
  cases h
  refine ⟨?_, le_of_not_lt hproj, le_of_not_lt himp⟩
  intro hlt
  apply htime
  simp only [eval_time_reject, decide_eq_true_eq]
  unfold MIN_TIME_REMAINING at hlt
  refine ⟨by unfold MIN_TIME_REMAINING; exact hlt, by omega⟩

/-- Witness for C1: the spec scenario - BTC at asks 0.47/0.50, no prior
position, 1000 USDC available, 600 seconds to expiry - on which the
evaluator emits a first-leg intent. -/
theorem evaluator_safety_ladder_witness :
    ¬ get_seconds_remaining 0 exampleMarket.end_time < MIN_TIME_REMAINING
    ∧ exampleIntent.projected_pair ≤ TARGET_PAIR_COST
    ∧ exampleIntent.improvement ≥ MIN_IMPROVEMENT_REQUIRED :=
  evaluator_safety_ladder 0 exampleMarket initMState 1000 exampleIntent (by
    simp [evaluate_auto_trade, exampleMarket, exampleIntent, initMState,
      calculate_metrics, current_pair_cost_of, get_seconds_remaining,
      eval_time_reject, min_def, max_def, TARGET_PAIR_COST, MIN_TRADE_USD,
      MAX_TRADE_USD, MAX_TRADE_PCT, MIN_IMPROVEMENT_REQUIRED,
      MAX_DIRECTIONAL_RISK_PCT, MIN_TIME_REMAINING, sized_trade_usd,
      urgency_multiplier, projected_avg, projected_pair_of,
      current_imbalance_usd_of]
    norm_num)

/-- The per-opportunity loop attempts at most one trade. -/
theorem exec_loop_length_le_one (usdc : ℚ) (st : EngineState) :
    ∀ opps : List GateOpp, (exec_loop usdc st opps).length ≤ 1 := by
  intro opps
  induction opps with
  | nil => simp [exec_loop]
  | cons o rest ih =>
    by_cases hg : gate_clears usdc st o
    · simp [exec_loop, hg]
    · simpa [exec_loop, hg] using ih

/-- The per-opportunity loop attempts exactly the first opportunity that
clears every gate, if any. -/
theorem exec_loop_eq_first (usdc : ℚ) (st : EngineState) :
    ∀ opps : List GateOpp,
      exec_loop usdc st opps =
        match opps.find? (gate_clears usdc st) with
        | some o => [o]
        | none => [] := by
  intro opps
  induction opps with
  | nil => simp [exec_loop]
  | cons o rest ih =>
    by_cases hg : gate_clears usdc st o
    · simp [exec_loop, hg, List.find?_cons_of_pos]
    · rw [List.find?_cons_of_neg _ (by simpa using hg)]
      simpa [exec_loop, hg] using ih

/-- A tick either makes no attempt and leaves the state untouched, or
attempts exactly the exec_loop result, stamps last_trade_time with the
attempt time, and only does so when the cooldown since the previous
attempt had elapsed at tick start. -/
theorem run_tick_dichotomy (st : EngineState) (tk : Tick) :
    ((run_tick st tk).2 = [] ∧ (run_tick st tk).1 = st)
    ∨ ((run_tick st tk).2 = exec_loop tk.usdc st tk.opps
        ∧ (run_tick st tk).1 = { st with last_trade_time := tk.attempt_time }
        ∧ st.last_trade_time + AUTO_TRADE_COOLDOWN ≤ tk.tick_start
        ∧ exec_loop tk.usdc st tk.opps ≠ []) := by
  unfold run_tick
  by_cases h1 : tk.available < MIN_TRADE_USD
  · left; simp [h1]
  · rw [if_neg h1]
    by_cases h2 : tk.tick_start - st.last_trade_time < AUTO_TRADE_COOLDOWN
    · left; simp [h2]
    · rw [if_neg h2]
      cases hex : exec_loop tk.usdc st tk.opps with
      | nil => left; simp
      | cons o os =>
        right
        refine ⟨rfl, rfl, by linarith [not_lt.mp h2], by simp [hex]⟩

/-- While the cooldown since the previous attempt has not elapsed at tick
start, the tick makes no trade attempt at all. -/
theorem run_tick_cooldown_blocks (st : EngineState) (tk : Tick)
    (h : tk.tick_start - st.last_trade_time < AUTO_TRADE_COOLDOWN) :
    (run_tick st tk).2 = [] := by
  unfold run_tick
  by_cases h1 : tk.available < MIN_TRADE_USD
  · simp [h1]
  · rw [if_neg h1, if_pos h]

/-- The first attempt issued after a given state comes no earlier than
one full cooldown after that state's last_trade_time. -/
theorem run_ticks_head_bound :
    ∀ (ticks : List Tick) (st : EngineState),
      (∀ tk ∈ ticks, tk.tick_start ≤ tk.attempt_time) →
      ∀ x, (run_ticks st ticks).head? = some x →
        st.last_trade_time + AUTO_TRADE_COOLDOWN ≤ x := by
  intro ticks
  induction ticks with
  | nil =>
    intro st hwf x hx
    simp [run_ticks] at hx
  | cons tk rest ih =>
    intro st hwf x hx
    have hwtk := hwf tk (List.mem_cons_self tk rest)
    have hwrest : ∀ t ∈ rest, t.tick_start ≤ t.attempt_time :=
      fun t ht => hwf t (List.mem_cons_of_mem tk ht)
    rcases run_tick_dichotomy st tk with ⟨h2, h1⟩ | ⟨h2, h1, hcool, hne⟩
    · have hrw : run_ticks st (tk :: rest) = run_ticks st rest := by
        simp only [run_ticks]
        rw [h2, h1]
      rw [hrw] at hx
      exact ih st hwrest x hx
    · obtain ⟨o, os, hoos⟩ := List.exists_cons_of_ne_nil hne
      have hrw : run_ticks st (tk :: rest)
          = tk.attempt_time :: run_ticks (run_tick st tk).1 rest := by
        simp only [run_ticks]
        rw [h2, hoos]
      rw [hrw] at hx
      have hxeq : x = tk.attempt_time := by
        simpa using hx.symm
      rw [hxeq]
      linarith

/-- Attempt times along any run are spaced by at least the cooldown. -/
theorem run_ticks_chain :
    ∀ (ticks : List Tick) (st : EngineState),
      (∀ tk ∈ ticks, tk.tick_start ≤ tk.attempt_time) →
      List.Chain' (fun a b => a + AUTO_TRADE_COOLDOWN ≤ b) (run_ticks st ticks) := by
  intro ticks
  induction ticks with
  | nil =>
    intro st hwf
    simp [run_ticks]
  | cons tk rest ih =>
    intro st hwf
    have hwrest : ∀ t ∈ rest, t.tick_start ≤ t.attempt_time :=
      fun t ht => hwf t (List.mem_cons_of_mem tk ht)
    rcases run_tick_dichotomy st tk with ⟨h2, h1⟩ | ⟨h2, h1, _, hne⟩
    · have hrw : run_ticks st (tk :: rest) = run_ticks st rest := by
        simp only [run_ticks]
        rw [h2, h1]
      rw [hrw]
      exact ih st hwrest
    · obtain ⟨o, os, hoos⟩ := List.exists_cons_of_ne_nil hne
      have hrw : run_ticks st (tk :: rest)
          = tk.attempt_time :: run_ticks (run_tick st tk).1 rest := by
        simp only [run_ticks]
        rw [h2, hoos]
      rw [hrw]
      refine List.chain'_cons'.mpr ⟨?_, ih (run_tick st tk).1 hwrest⟩
      intro y hy
      have hb := run_ticks_head_bound rest (run_tick st tk).1 hwrest y (by simpa using hy)
      rw [h1] at hb
      exact hb

/-- Claim C5: in auto mode the execution gate attempts at most one trade
per tick - the first opportunity clearing all gate checks, after which no
further intents are considered - and never issues a second attempt within
the 15-second cooldown of the previous attempt, success or failure:
a tick starting inside the cooldown window attempts nothing, and along
any run whose attempts happen no earlier than their tick start, attempt
times are spaced by at least the cooldown. -/
theorem one_trade_per_tick_and_cooldown :
    (∀ (usdc : ℚ) (st : EngineState) (opps : List GateOpp),
       exec_loop usdc st opps =
         match opps.find? (gate_clears usdc st) with
         | some o => [o]
         | none => [])
    ∧ (∀ (st : EngineState) (tk : Tick), (run_tick st tk).2.length ≤ 1)
    ∧ (∀ (st : EngineState) (tk : Tick),
         tk.tick_start - st.last_trade_time < AUTO_TRADE_COOLDOWN →
         (run_tick st tk).2 = [])
    ∧ (∀ (st : EngineState) (ticks : List Tick),
         (∀ tk ∈ ticks, tk.tick_start ≤ tk.attempt_time) →
         List.Chain' (fun a b => a + AUTO_TRADE_COOLDOWN ≤ b) (run_ticks st ticks)) := by
  refine ⟨exec_loop_eq_first, ?_, run_tick_cooldown_blocks, ?_⟩
  · intro st tk
    rcases run_tick_dichotomy st tk with ⟨h2, _⟩ | ⟨h2, _, _, _⟩
    · simp [h2]
    · rw [h2]
      exact exec_loop_length_le_one tk.usdc st tk.opps
  · intro st ticks hwf
    exact run_ticks_chain ticks st hwf

/-- Witness for C5: a blocked tick 10 s after an attempt, and a
well-formed two-tick run. -/
theorem one_trade_per_tick_and_cooldown_witness :
    (run_tick EngineState.init tkBlocked).2 = []
    ∧ List.Chain' (fun a b => a + AUTO_TRADE_COOLDOWN ≤ b)
        (run_ticks EngineState.init [tkBlocked, tkSecond]) :=
  ⟨one_trade_per_tick_and_cooldown.2.2.1 EngineState.init tkBlocked
      (by norm_num [tkBlocked, EngineState.init, AUTO_TRADE_COOLDOWN]),
   one_trade_per_tick_and_cooldown.2.2.2 EngineState.init [tkBlocked, tkSecond]
      (by
        intro tk htk
        simp only [List.mem_cons, List.not_mem_nil, or_false] at htk
        rcases htk with rfl | rfl
        · norm_num [tkBlocked]
        · norm_num [tkSecond])⟩

/-- Claim C6 (code bug): after a live trade attempt fails with a
rate-limit (403) response at time 1000, line 2684's 60-second extension
(which would make the cooldown origin 1060) is immediately overwritten by
line 2686's unconditional write, leaving last_trade_time = 1000; a tick
at time 1020 - only 20 s after the failed attempt, well inside the
claimed 60 s window - then issues a new trade attempt. -/
theorem rate_limit_cooldown_overwritten :
    live_failure_last_trade_time 1000 true 0 = 1000
    ∧ rate_limit_extended_time 1000 true 0 = 1060
    ∧ stAfter403.last_trade_time = 1000
    ∧ tkAfterRateLimit.tick_start < 1000 + 60
    ∧ (run_tick stAfter403 tkAfterRateLimit).2 = [gateOppOk] := by
  refine ⟨rfl, by with_unfolding_all rfl, rfl, by norm_num [tkAfterRateLimit], ?_⟩
  with_unfolding_all rfl

/-- A successful execute_market_buy always reports a positive filled
size (though, per the C2 counterexample, that size is the assumed request
size when the status query failed). -/
theorem buy_success_filled_pos (env : BuyEnv) (cost_usd : ℚ) (mstate : MState)
    (side : Side) (seconds_remaining : Int)
    (h : (execute_market_buy env cost_usd mstate side seconds_remaining).success = true) :
    0 < (execute_market_buy env cost_usd mstate side seconds_remaining).filled_shares := by
  revert h
  suffices hall : ∀ r, execute_market_buy env cost_usd mstate side seconds_remaining = r →
      (r.success = true → 0 < r.filled_shares) by
    exact hall _ rfl
  intro r hr
  unfold execute_market_buy at hr
  simp only [] at hr
  repeat' split at hr
  all_goals subst hr
  all_goals intro hs
  all_goals simp_all

/-- Claim C2 counterexample: with an order book of best ask 0.5, a posted
order carrying an orderID, and a fill-status query that raises, the
executor assumes the full requested size (10 / 0.5 = 20 shares) was
filled, reports success, and execute_auto_trade applies this unconfirmed
fill to the ledger - the error path the claim says must leave the ledger
untouched. -/
theorem status_query_failure_updates_ledger :
    order_status_failed cexBuyEnv = true
    ∧ (EngineState.init.get_position "c").shares_up = 0
    ∧ (execute_auto_trade EngineState.init cexBuyEnv cexIntent initMState).2.success = true
    ∧ ((execute_auto_trade EngineState.init cexBuyEnv cexIntent
          initMState).1.get_position "c").shares_up = 20 := by
  exact ⟨rfl, rfl, by with_unfolding_all rfl, by with_unfolding_all rfl⟩

/-- Claim C2 amended: every path on which the executor reports failure
(order-book fetch failure, no asks, too-small order, order API error,
missing or falsy response, confirmed non-fill, safety rejection) leaves
the ledger unchanged, and the ledger is only updated on a reported
success, which always carries a positive filled size; however, when the
fill-status query fails after a successfully posted order, that size is
the assumed full request size rather than a venue-confirmed fill. -/
theorem ledger_updated_only_on_reported_success (st : EngineState) (env : BuyEnv)
    (ti : TradeIntent) (mstate : MState) :
    ((execute_market_buy env ti.trade_usd mstate ti.side ti.seconds_remaining).success
        = false → (execute_auto_trade st env ti mstate).1 = st)
    ∧ ((execute_market_buy env ti.trade_usd mstate ti.side ti.seconds_remaining).success
        = true →
       0 < (execute_market_buy env ti.trade_usd mstate ti.side
              ti.seconds_remaining).filled_shares) := by
  constructor
  · intro hfail
    simp [execute_auto_trade, hfail]
  · exact buy_success_filled_pos env ti.trade_usd mstate ti.side ti.seconds_remaining

/-- Witness for the amended C2: a failed order-book fetch leaves the
ledger untouched, and the assumed-fill success carries a positive size. -/
theorem ledger_updated_only_on_reported_success_witness :
    (execute_auto_trade EngineState.init failBuyEnv cexIntent initMState).1
        = EngineState.init
    ∧ 0 < (execute_market_buy cexBuyEnv cexIntent.trade_usd initMState cexIntent.side
            cexIntent.seconds_remaining).filled_shares :=
  ⟨(ledger_updated_only_on_reported_success EngineState.init failBuyEnv cexIntent
      initMState).1 rfl,
   (ledger_updated_only_on_reported_success EngineState.init cexBuyEnv cexIntent
      initMState).2 (by with_unfolding_all rfl)⟩

/-- Claim C8 counterexample: the prior cache holds an active BTC market;
a discovery round in which BTC's lookup fails but the other three symbols
succeed replaces the whole cache, and the BTC entry of the new cache is
the inactive waiting placeholder - the prior BTC market is discarded, not
kept. -/
theorem discovery_discards_prior_market :
    cexFound "btc" = none
    ∧ exampleMarket.active = true
    ∧ exampleMarket ∈ cexOldMarkets
    ∧ run_market_discovery cexFound
        = [placeholder_market "btc", ethFound, solFound, xrpFound]
    ∧ update_cached_markets cexOldMarkets (some (run_market_discovery cexFound))
        = [placeholder_market "btc", ethFound, solFound, xrpFound]
    ∧ exampleMarket ∉ run_market_discovery cexFound
    ∧ (placeholder_market "btc").active = false := by
  have hdisc : run_market_discovery cexFound
      = [placeholder_market "btc", ethFound, solFound, xrpFound] := by
    with_unfolding_all rfl
  refine ⟨by with_unfolding_all rfl, rfl, ?_, hdisc, ?_, ?_, rfl⟩
  · simp [cexOldMarkets]
  · rw [hdisc]
    simp [update_cached_markets]
  · rw [hdisc]
    simp [exampleMarket, placeholder_market, ethFound, solFound, xrpFound]

/-- stable_insert_by adds exactly one element. -/
theorem length_stable_insert_by (key : Market → Nat) (a : Market) :
    ∀ l, (stable_insert_by key a l).length = l.length + 1 := by
  intro l
  induction l with
  | nil => rfl
  | cons b rest ih =>
    by_cases hk : key b < key a
    · simp [stable_insert_by, hk, ih]
    · simp [stable_insert_by, hk]

/-- stable_sort_by preserves length. -/
theorem length_stable_sort_by (key : Market → Nat) :
    ∀ l, (stable_sort_by key l).length = l.length := by
  intro l
  induction l with
  | nil => rfl
  | cons a rest ih =>
    simp [stable_sort_by, length_stable_insert_by, ih]

/-- stable_insert_by contains exactly the inserted element and the
original elements. -/
theorem mem_stable_insert_by (key : Market → Nat) (a x : Market) :
    ∀ l, x ∈ stable_insert_by key a l ↔ x = a ∨ x ∈ l := by
  intro l
  induction l with
  | nil => simp [stable_insert_by]
  | cons b rest ih =>
    by_cases hk : key b < key a
    · simp [stable_insert_by, hk, ih]
      tauto
    · simp [stable_insert_by, hk]

/-- stable_sort_by preserves membership. -/
theorem mem_stable_sort_by (key : Market → Nat) (x : Market) :
    ∀ l, x ∈ stable_sort_by key l ↔ x ∈ l := by
  intro l
  induction l with
  | nil => simp [stable_sort_by]
  | cons a rest ih =>
    simp [stable_sort_by, mem_stable_insert_by, ih]

/-- Claim C8 amended: a discovery call that fails as a whole keeps the
entire prior cache; a per-symbol failure, however, replaces that symbol
with the inactive waiting placeholder (the prior market for it is
discarded) while every successfully found market is kept, one entry per
expected symbol, so a partial failure never discards the whole set; and
fewer than all-expected active markets raises the health warning while
discovery still returns its result rather than failing. -/
theorem discovery_per_symbol_failure_behavior (found : String → Option Market)
    (old : List Market) :
    update_cached_markets old none = old
    ∧ (run_market_discovery found).length = SLUG_COINS.length
    ∧ (∀ coin ∈ SLUG_COINS, found coin = none →
        placeholder_market coin ∈ run_market_discovery found)
    ∧ (∀ coin ∈ SLUG_COINS, ∀ m, found coin = some m →
        m ∈ run_market_discovery found)
    ∧ (active_count (run_market_discovery found) < 4 →
        market_health_warning (run_market_discovery found) = true) := by
  refine ⟨rfl, ?_, ?_, ?_, ?_⟩
  · unfold run_market_discovery
    rw [length_stable_sort_by]
    simp
  · intro coin hc hnone
    unfold run_market_discovery
    rw [mem_stable_sort_by]
    refine List.mem_map.mpr ⟨coin, hc, ?_⟩
    rw [hnone]
  · intro coin hc m hsome
    unfold run_market_discovery
    rw [mem_stable_sort_by]
    refine List.mem_map.mpr ⟨coin, hc, ?_⟩
    rw [hsome]
  · intro h
    simp only [market_health_warning, decide_eq_true_eq]
    exact h

/-- Witness for the amended C8: the discovery round in which BTC fails
and the other three symbols succeed. -/
theorem discovery_per_symbol_failure_behavior_witness :
    update_cached_markets cexOldMarkets none = cexOldMarkets
    ∧ placeholder_market "btc" ∈ run_market_discovery cexFound
    ∧ ethFound ∈ run_market_discovery cexFound
    ∧ market_health_warning (run_market_discovery cexFound) = true :=
  ⟨(discovery_per_symbol_failure_behavior cexFound cexOldMarkets).1,
   (discovery_per_symbol_failure_behavior cexFound cexOldMarkets).2.2.1 "btc"
     (by simp [SLUG_COINS]) (by with_unfolding_all rfl),
   (discovery_per_symbol_failure_behavior cexFound cexOldMarkets).2.2.2.1 "eth"
     (by simp [SLUG_COINS]) ethFound (by with_unfolding_all rfl),
   (discovery_per_symbol_failure_behavior cexFound cexOldMarkets).2.2.2.2
     (by
       have hcount : active_count (run_market_discovery cexFound) = 3 := by
         with_unfolding_all rfl
       omega)⟩

end PolyArb
